import Mathlib

/-!
Shallow embedding of the Snake game simulation from `main.py`.

Rendering, fonts, the pygame event loop and the segment colors (opaque
display attributes drawn at random from the palette file) are out of
scope; only the simulation state is modelled. Python's floor division
`//` is embedded as `Int`'s `/` (`Int.ediv`), which agrees with floor
division for the positive divisor `2` used by the source. The two values
produced by `random.randint(1, width - 2)` and
`random.randint(1, height - 2)` inside `spawn_apple` are passed in as an
explicit parameter `r`; theorems that depend on them assume the range
guaranteed by `randint`. The global `GAME_ON` flag is modelled as the
`game_on` field of `GameState`.
-/

/-- The `Position` class: an integer point in 2D space. -/
structure Position where
  x : ℤ
  y : ℤ
  deriving DecidableEq

/-- `Position.__add__`. -/
def Position.add (a b : Position) : Position := ⟨a.x + b.x, a.y + b.y⟩

/-- `Position.__sub__`. -/
def Position.sub (a b : Position) : Position := ⟨a.x - b.x, a.y - b.y⟩

instance : Add Position := ⟨Position.add⟩

instance : Sub Position := ⟨Position.sub⟩

@[simp] theorem Position.add_eq (a b : Position) : a + b = ⟨a.x + b.x, a.y + b.y⟩ := rfl

@[simp] theorem Position.sub_eq (a b : Position) : a - b = ⟨a.x - b.x, a.y - b.y⟩ := rfl

/-- The `Direction` enum: `N` is the `None`-like rest direction. -/
inductive Direction where
  | N
  | U
  | D
  | L
  | R
  deriving DecidableEq

/-- The `Position` delta attached to each `Direction` (the Python enum value). -/
def Direction.value : Direction → Position
  | .N => ⟨0, 0⟩
  | .U => ⟨0, -1⟩
  | .D => ⟨0, 1⟩
  | .L => ⟨-1, 0⟩
  | .R => ⟨1, 0⟩

/-- The `Segment` class, minus its color attribute. -/
structure Segment where
  position : Position
  direction : Direction
  is_head : Bool
  deriving DecidableEq

/-- `Segment.set_direction`. -/
def Segment.set_direction (s : Segment) (d : Direction) : Segment :=
  { s with direction := d }

/-- The `Snake` class: one head segment plus an ordered body. -/
structure Snake where
  head : Segment
  body : List Segment
  deriving DecidableEq

/-- `Snake.__init__`: head at `(x, y)` facing `N`, empty body. -/
def Snake.init (x y : ℤ) : Snake :=
  { head := ⟨⟨x, y⟩, Direction.N, true⟩, body := [] }

/-- `Snake.grow`: append one segment behind the last existing segment
(`body[-1] if self.body else self.head`). -/
def Snake.grow (s : Snake) : Snake :=
  let last_segment : Segment := s.body.getLast?.getD s.head
  let new_direction : Direction := last_segment.direction
  let new_position : Position := last_segment.position - new_direction.value
  let new_segment : Segment := ⟨new_position, new_direction, false⟩
  { s with body := s.body ++ [new_segment] }

/-- One pass of the loop in `Snake.update_direction`: Python's
`for i in range(len(body) - 1, 0, -1): body[i].direction = body[i-1].direction`.
The argument is the next loop index; `0` means the loop has finished, since
index `0` is excluded from the range. The bounds check is vacuous at every
call site (the start index is `len - 1`), mirroring the always-in-range
Python indexing. -/
def update_direction_go (body : List Segment) : Nat → List Segment
  | 0 => body
  | i + 1 =>
    let body1 :=
      if h : i + 1 < body.length then
        body.set (i + 1)
          { body.get ⟨i + 1, h⟩ with direction := (body.get ⟨i, by omega⟩).direction }
      else body
    update_direction_go body1 i

/-- `Snake.update_direction`: the backward loop, then
`if self.body: self.body[0].direction = self.head.direction`. -/
def Snake.update_direction (s : Snake) : Snake :=
  let body1 := update_direction_go s.body (s.body.length - 1)
  match body1 with
  | [] => { s with body := [] }
  | b0 :: rest => { s with body := { b0 with direction := s.head.direction } :: rest }

/-- `Snake.update_position`: every segment, head included, advances by its
own current direction's delta. -/
def Snake.update_position (s : Snake) : Snake :=
  { head := { s.head with position := s.head.position + s.head.direction.value },
    body := s.body.map fun seg => { seg with position := seg.position + seg.direction.value } }

/-- `Snake.change_direction`: unconditionally set the head's direction. -/
def Snake.change_direction (s : Snake) (d : Direction) : Snake :=
  { s with head := { s.head with direction := d } }

/-- The `Apple` class. -/
structure Apple where
  position : Position
  deriving DecidableEq

/-- `Apple.move`. -/
def Apple.move (a : Apple) (new_position : Position) : Apple :=
  { a with position := new_position }

/-- The `Board` class, minus its background color. -/
structure Board where
  width : ℤ
  height : ℤ
  cell_width : ℤ
  score : ℤ
  apple : Apple
  snake : Snake
  deriving DecidableEq

/-- The body part of `Board.check_snake_collision`: for each `i`, the
`body[i] == head_pos` test, then the inner `j in range(i+1, len)` pairwise
`body[i] == body[j]` test, with the same early-exit order as the source. -/
def collision_scan (head_pos : Position) : List Segment → Bool
  | [] => false
  | s :: rest =>
    decide (s.position = head_pos)
      || rest.any (fun t => decide (t.position = s.position))
      || collision_scan head_pos rest

/-- `Board.check_snake_collision`: wall test on the head, then the body scan. -/
def Board.check_snake_collision (b : Board) : Bool :=
  let head_pos : Position := b.snake.head.position
  if head_pos.x < 0 ∨ head_pos.y < 0 ∨ head_pos.x ≥ b.width ∨ head_pos.y ≥ b.height then
    true
  else
    collision_scan head_pos b.snake.body

/-- `Board.spawn_apple`: the results of the two `random.randint` calls are
supplied as `r`. -/
def Board.spawn_apple (b : Board) (r : Position) : Board :=
  { b with apple := b.apple.move ⟨r.x, r.y⟩ }

/-- `Board.set_board` (reset): `//` of the source is `Int.ediv` here, which
matches Python floor division for the divisor 2. -/
def Board.set_board (b : Board) : Board :=
  { b with
    score := 0
    snake := Snake.init (b.width / 2 - 1) (b.height / 2 - 1)
    apple := ⟨⟨b.width / 2 - 1, b.height / 2 - 3⟩⟩ }

/-- `Board.turn`: the Python body mutates the global `board`, which at run
time is the very board the method is invoked on, so it acts on `b`. -/
def Board.turn (b : Board) (direction : Direction) : Board :=
  let snake_dir : Direction := b.snake.head.direction
  if snake_dir ≠ direction ∧ snake_dir.value + direction.value ≠ (⟨0, 0⟩ : Position) then
    { b with snake := b.snake.change_direction direction }
  else
    b

/-- The board together with the global `GAME_ON` flag. -/
structure GameState where
  board : Board
  game_on : Bool
  deriving DecidableEq

/-- `Board.update`, together with its write to the global `GAME_ON`. Note
that the source has no `else` or early return between the collision check
and the food check: the food-consumption block runs even on a collision
tick. -/
def GameState.update (g : GameState) (r : Position) : GameState :=
  let snake1 := g.board.snake.update_position.update_direction
  let b1 := { g.board with snake := snake1 }
  let on1 := if b1.check_snake_collision then false else g.game_on
  let b2 :=
    if snake1.head.position = b1.apple.position then
      ({ b1 with score := b1.score + 1, snake := snake1.grow }).spawn_apple r
    else b1
  { board := b2, game_on := on1 }

/-- The board state after the two snake-motion steps of `update`, at the
moment the collision check runs. -/
def Board.after_move (b : Board) : Board :=
  { b with snake := b.snake.update_position.update_direction }

/-! Helper lemmas about the embedded operations, shared by the claim
theorems below. -/

theorem Position.add_value_N (p : Position) : p + Direction.N.value = p := by
  simp [Direction.value]

theorem Position.sub_value_N (p : Position) : p - Direction.N.value = p := by
  simp [Direction.value]

theorem Direction.value_add_N_ne_zero (d : Direction) (hd : d ≠ Direction.N) :
    d.value + Direction.N.value ≠ (⟨0, 0⟩ : Position) := by
  cases d
  · exact absurd rfl hd
  all_goals decide

theorem Position.add_comm_eq (a b : Position) : a + b = b + a := by
  simp [Int.add_comm]

theorem update_direction_go_length (body : List Segment) (k : Nat) :
    (update_direction_go body k).length = body.length := by
  induction k generalizing body with
  | zero => rfl
  | succ i ih =>
    rw [update_direction_go]
    split
    · rw [ih]
      exact List.length_set ..
    · exact ih body

theorem update_direction_go_getElem?_zero (body : List Segment) (k : Nat) :
    (update_direction_go body k)[0]? = body[0]? := by
  induction k generalizing body with
  | zero => rfl
  | succ i ih =>
    rw [update_direction_go]
    split
    · rw [ih]
      exact List.getElem?_set_ne (by omega)
    · exact ih body

theorem update_direction_go_getElem?_of_lt (body : List Segment) (k j : Nat) (h : k < j) :
    (update_direction_go body k)[j]? = body[j]? := by
  induction k generalizing body with
  | zero => rfl
  | succ i ih =>
    rw [update_direction_go]
    split
    · rw [ih _ (by omega)]
      exact List.getElem?_set_ne (by omega)
    · exact ih body (by omega)

theorem update_direction_go_getElem?_mid (body : List Segment) (k j : Nat)
    (h1 : 1 ≤ j) (h2 : j ≤ k) (hk : k < body.length) :
    (update_direction_go body k)[j]? =
      body[j]?.bind fun sj => body[j - 1]?.map fun sp => { sj with direction := sp.direction } := by
  induction k generalizing body j with
  | zero => omega
  | succ i ih =>
    rw [update_direction_go]
    rw [dif_pos hk]
    rcases Nat.lt_or_ge j (i + 1) with hj | hj
    · have hj1 : 1 ≤ i := by omega
      rw [ih _ j h1 (by omega) (by simpa using by omega)]
      have hne : i + 1 ≠ j := by omega
      have hne1 : i + 1 ≠ j - 1 := by omega
      rw [List.getElem?_set_ne hne, List.getElem?_set_ne hne1]
    · have hj2 : j = i + 1 := by omega
      subst hj2
      rw [update_direction_go_getElem?_of_lt _ _ _ (by omega)]
      rw [List.getElem?_set_self hk]
      rw [List.getElem?_eq_getElem hk, List.getElem?_eq_getElem (by omega : i + 1 - 1 < body.length)]
      simp [List.get_eq_getElem]

theorem update_direction_go_getElem?_position (body : List Segment) (k j : Nat) :
    ((update_direction_go body k)[j]?.map Segment.position) = body[j]?.map Segment.position := by
  induction k generalizing body with
  | zero => rfl
  | succ i ih =>
    rw [update_direction_go]
    split
    · rw [ih]
      rcases Decidable.em (i + 1 = j) with hj | hj
      · subst hj
        rw [List.getElem?_set_self (by assumption)]
        rw [List.getElem?_eq_getElem (by assumption)]
        simp [List.get_eq_getElem]
      · rw [List.getElem?_set_ne hj]
    · exact ih body

theorem Snake.update_direction_head (s : Snake) : (s.update_direction).head = s.head := by
  unfold Snake.update_direction
  cases update_direction_go s.body (s.body.length - 1) <;> rfl

theorem Snake.update_direction_body_length (s : Snake) :
    (s.update_direction).body.length = s.body.length := by
  unfold Snake.update_direction
  have h := update_direction_go_length s.body (s.body.length - 1)
  cases hb : update_direction_go s.body (s.body.length - 1) with
  | nil =>
    rw [hb] at h
    simp only [List.length_nil] at h
    simp
    omega
  | cons b0 rest =>
    rw [hb] at h
    simp only [List.length_cons] at h
    simp
    omega

theorem Snake.update_direction_body_getElem?_succ (s : Snake) (j : Nat) (h : 1 ≤ j) :
    (s.update_direction).body[j]? = (update_direction_go s.body (s.body.length - 1))[j]? := by
  unfold Snake.update_direction
  cases hb : update_direction_go s.body (s.body.length - 1) with
  | nil => simp
  | cons b0 rest =>
    obtain ⟨i, rfl⟩ : ∃ i, j = i + 1 := ⟨j - 1, by omega⟩
    simp

theorem Snake.update_direction_body_getElem?_zero_direction (s : Snake) (h : s.body ≠ []) :
    ((s.update_direction).body[0]?.map Segment.direction) = some s.head.direction := by
  unfold Snake.update_direction
  have hlen := update_direction_go_length s.body (s.body.length - 1)
  cases hb : update_direction_go s.body (s.body.length - 1) with
  | nil =>
    rw [hb] at hlen
    exact absurd (List.length_eq_zero.mp hlen.symm) h
  | cons b0 rest => simp

theorem Snake.update_direction_body_getElem?_position (s : Snake) (j : Nat) :
    ((s.update_direction).body[j]?.map Segment.position) = s.body[j]?.map Segment.position := by
  rcases Nat.eq_zero_or_pos j with hj | hj
  · subst hj
    have hlen := update_direction_go_length s.body (s.body.length - 1)
    have hgo := update_direction_go_getElem?_position s.body (s.body.length - 1) 0
    unfold Snake.update_direction
    cases hb : update_direction_go s.body (s.body.length - 1) with
    | nil =>
      rw [hb] at hlen
      have hnil : s.body = [] := by
        simp only [List.length_nil] at hlen
        exact List.length_eq_zero.mp hlen.symm
      simp [hnil]
    | cons b0 rest =>
      rw [hb] at hgo
      simpa using hgo
  · rw [Snake.update_direction_body_getElem?_succ s j hj]
    exact update_direction_go_getElem?_position s.body (s.body.length - 1) j

theorem Snake.update_position_body_length (s : Snake) :
    (s.update_position).body.length = s.body.length := by
  simp [Snake.update_position]

theorem Snake.grow_body_length (s : Snake) : (s.grow).body.length = s.body.length + 1 := by
  simp [Snake.grow]

theorem collision_scan_iff (hp : Position) (l : List Segment) :
    collision_scan hp l = true ↔
      (∃ s ∈ l, s.position = hp) ∨
      (∃ (i j : Nat) (si sj : Segment), i < j ∧ l[i]? = some si ∧ l[j]? = some sj ∧
        si.position = sj.position) := by
  induction l with
  | nil => simp [collision_scan]
  | cons s rest ih =>
    simp only [collision_scan, Bool.or_eq_true, decide_eq_true_eq, List.any_eq_true, ih]
    constructor
    · rintro ((hh | ⟨t, ht, hts⟩) | hrest)
      · exact Or.inl ⟨s, List.mem_cons_self s rest, hh⟩
      · obtain ⟨n, hn⟩ := List.getElem?_of_mem ht
        exact Or.inr ⟨0, n + 1, s, t, by omega, by simp, by simpa using hn, hts.symm⟩
      · rcases hrest with ⟨t, ht, hts⟩ | ⟨i, j, si, sj, hij, hi, hj, hpos⟩
        · exact Or.inl ⟨t, List.mem_cons_of_mem s ht, hts⟩
        · exact Or.inr ⟨i + 1, j + 1, si, sj, by omega, by simpa using hi, by simpa using hj,
            hpos⟩
    · rintro (⟨t, ht, hts⟩ | ⟨i, j, si, sj, hij, hi, hj, hpos⟩)
      · rcases List.mem_cons.mp ht with rfl | ht2
        · exact Or.inl (Or.inl hts)
        · exact Or.inr (Or.inl ⟨t, ht2, hts⟩)
      · cases i with
        | zero =>
          obtain ⟨j2, rfl⟩ : ∃ j2, j = j2 + 1 := ⟨j - 1, by omega⟩
          have hsi : si = s := by
            have hs0 := hi
            simp only [List.getElem?_cons_zero, Option.some.injEq] at hs0
            exact hs0.symm
          subst hsi
          have hjm : sj ∈ rest := List.mem_iff_getElem?.mpr ⟨j2, by simpa using hj⟩
          exact Or.inl (Or.inr ⟨sj, hjm, hpos.symm⟩)
        | succ i2 =>
          obtain ⟨j2, rfl⟩ : ∃ j2, j = j2 + 1 := ⟨j - 1, by omega⟩
          exact Or.inr (Or.inr ⟨i2, j2, si, sj, by omega, by simpa using hi, by simpa using hj,
            hpos⟩)

theorem check_snake_collision_iff (b : Board) :
    b.check_snake_collision = true ↔
      (b.snake.head.position.x < 0 ∨ b.snake.head.position.y < 0 ∨
        b.snake.head.position.x ≥ b.width ∨ b.snake.head.position.y ≥ b.height) ∨
      (∃ s ∈ b.snake.body, s.position = b.snake.head.position) ∨
      (∃ (i j : Nat) (si sj : Segment), i < j ∧ b.snake.body[i]? = some si ∧ b.snake.body[j]? = some sj ∧
        si.position = sj.position) := by
  simp only [Board.check_snake_collision]
  rcases Decidable.em (b.snake.head.position.x < 0 ∨ b.snake.head.position.y < 0 ∨
      b.snake.head.position.x ≥ b.width ∨ b.snake.head.position.y ≥ b.height) with hc | hc
  · rw [if_pos hc]
    exact iff_of_true rfl (Or.inl hc)
  · rw [if_neg hc]
    rw [collision_scan_iff]
    constructor
    · exact fun h => Or.inr h
    · rintro (h | h)
      · exact absurd h hc
      · exact h

/-! Concrete states used by witnesses and counterexamples. -/

/-- A 5-by-5 board whose snake head has already left the grid on the left. -/
def bW : Board := ⟨5, 5, 30, 0, ⟨⟨2, 2⟩⟩, ⟨⟨⟨-1, 0⟩, Direction.L, true⟩, []⟩⟩

/-- A 10-by-10 board with a single-segment snake moving right at (4, 4). -/
def bT : Board := ⟨10, 10, 30, 0, ⟨⟨0, 0⟩⟩, ⟨⟨⟨4, 4⟩, Direction.R, true⟩, []⟩⟩

/-! Claim theorems. -/

/-- Claim C8: `set_board` resets the score to 0, recreates the snake with its
head at `(width / 2 - 1, height / 2 - 1)` (Python floor division) facing the
rest direction `N` with an empty body, and recreates the food at
`(width / 2 - 1, height / 2 - 3)`, on every board. -/
theorem set_board_initial_state (b : Board) :
    (b.set_board).score = 0 ∧
    (b.set_board).snake.head.position = (⟨b.width / 2 - 1, b.height / 2 - 1⟩ : Position) ∧
    (b.set_board).snake.head.direction = Direction.N ∧
    (b.set_board).snake.body = [] ∧
    (b.set_board).apple.position = (⟨b.width / 2 - 1, b.height / 2 - 3⟩ : Position) ∧
    (b.set_board).width = b.width ∧ (b.set_board).height = b.height :=
  ⟨rfl, rfl, rfl, rfl, rfl, rfl, rfl⟩

/-- Claim C5: `grow` leaves the head and all existing body segments unchanged
and appends exactly one segment, placed at the last existing segment's
position minus that segment's direction delta and sharing that segment's
direction; with an empty body the head plays the role of the last existing
segment (`body[-1] if self.body else self.head`). -/
theorem grow_appends_one_segment (s : Snake) :
    (s.grow).head = s.head ∧
    (s.grow).body.length = s.body.length + 1 ∧
    (s.grow).body = s.body ++
      [⟨(s.body.getLast?.getD s.head).position - (s.body.getLast?.getD s.head).direction.value,
        (s.body.getLast?.getD s.head).direction, false⟩] :=
  ⟨rfl, by simp [Snake.grow], rfl⟩

/-- Claim C4: the collision check returns `true` exactly when the head is out
of bounds, or the head's position equals some body segment's position, or two
distinct body segments occupy the same position. (The embedded check is a
pure function of the board, so it modifies no state by construction.) -/
theorem collision_check_characterisation (b : Board) :
    b.check_snake_collision = true ↔
      (b.snake.head.position.x < 0 ∨ b.snake.head.position.y < 0 ∨
        b.snake.head.position.x ≥ b.width ∨ b.snake.head.position.y ≥ b.height) ∨
      (∃ s ∈ b.snake.body, s.position = b.snake.head.position) ∨
      (∃ (i j : Nat) (si sj : Segment), i < j ∧ b.snake.body[i]? = some si ∧
        b.snake.body[j]? = some sj ∧ si.position = sj.position) :=
  check_snake_collision_iff b

/-- Witness for C4 at a concrete out-of-bounds board. -/
theorem collision_check_characterisation_w : bW.check_snake_collision = true :=
  (collision_check_characterisation bW).mpr (Or.inl (by decide))

/-- Claim C3: `turn(d)` installs `d` as the head's direction precisely when
`d` differs from the current head direction and the two deltas do not sum to
`(0, 0)`; otherwise it returns the board unchanged (and raises nothing). -/
theorem turn_legal_iff (b : Board) (d : Direction) :
    ((d ≠ b.snake.head.direction ∧
        d.value + b.snake.head.direction.value ≠ (⟨0, 0⟩ : Position)) →
      b.turn d = { b with snake := b.snake.change_direction d }) ∧
    (¬(d ≠ b.snake.head.direction ∧
        d.value + b.snake.head.direction.value ≠ (⟨0, 0⟩ : Position)) →
      b.turn d = b) := by
  constructor
  · intro h
    simp only [Board.turn]
    rw [if_pos ⟨Ne.symm h.1, by rw [Position.add_comm_eq]; exact h.2⟩]
  · intro h
    simp only [Board.turn]
    rw [if_neg]
    intro hc
    exact h ⟨Ne.symm hc.1, by rw [Position.add_comm_eq]; exact hc.2⟩

/-- Witness for C3: turning up from a rightward heading is installed. -/
theorem turn_legal_iff_w :
    bT.turn Direction.U = { bT with snake := bT.snake.change_direction Direction.U } :=
  (turn_legal_iff bT Direction.U).1 (by decide)

/-- Claim C9: when the head direction differs from `N`, `turn(N)` passes the
legality test (`N` differs from it, and its delta plus `(0, 0)` is nonzero),
so the head direction becomes `N` and the following position update leaves
the head in place: the public `turn` interface can halt the snake. -/
theorem turn_none_halts (b : Board) (hd : b.snake.head.direction ≠ Direction.N) :
    (b.snake.head.direction ≠ Direction.N ∧
      b.snake.head.direction.value + Direction.N.value ≠ (⟨0, 0⟩ : Position)) ∧
    (b.turn Direction.N).snake.head.direction = Direction.N ∧
    ((b.turn Direction.N).snake.update_position).head.position = b.snake.head.position := by
  refine ⟨⟨hd, Direction.value_add_N_ne_zero _ hd⟩, ?_, ?_⟩
  · simp only [Board.turn]
    rw [if_pos ⟨hd, Direction.value_add_N_ne_zero _ hd⟩]
    rfl
  · simp only [Board.turn]
    rw [if_pos ⟨hd, Direction.value_add_N_ne_zero _ hd⟩]
    simp [Snake.change_direction, Snake.update_position, Direction.value]

/-- Witness for C9 at a concrete rightward-moving snake. -/
theorem turn_none_halts_w : (bT.turn Direction.N).snake.head.direction = Direction.N :=
  (turn_none_halts bT (by decide)).2.1

/-- A straight snake of length three, all segments facing right. -/
def snake3 : Snake :=
  ⟨⟨⟨2, 2⟩, Direction.R, true⟩, [⟨⟨1, 2⟩, Direction.R, false⟩, ⟨⟨0, 2⟩, Direction.R, false⟩]⟩

/-- `snake3` after one `update_position` and `update_direction` pair: every
position shifted by `(+1, 0)`, every direction still `R`. -/
def snake3moved : Snake :=
  ⟨⟨⟨3, 2⟩, Direction.R, true⟩, [⟨⟨2, 2⟩, Direction.R, false⟩, ⟨⟨1, 2⟩, Direction.R, false⟩]⟩

/-- Claim C6: in one tick `update_position` advances the head and every body
segment by its own current direction delta, and `update_direction` then sets
`body[i].direction` to the old `body[i-1].direction` for `i` from the last
index down to 1 and `body[0].direction` to the head's direction; hence a
length-3 snake facing right everywhere moves one cell right with all
directions still `R`. -/
theorem movement_and_direction_cascade (s : Snake) :
    ((s.update_position).head.position = s.head.position + s.head.direction.value) ∧
    (∀ j : Nat, (s.update_position).body[j]? =
      s.body[j]?.map fun seg => { seg with position := seg.position + seg.direction.value }) ∧
    (∀ j : Nat, 1 ≤ j → j < s.body.length →
      ((s.update_direction).body[j]?.map Segment.direction) =
        s.body[j - 1]?.map Segment.direction) ∧
    (s.body ≠ [] →
      ((s.update_direction).body[0]?.map Segment.direction) = some s.head.direction) ∧
    snake3.update_position.update_direction = snake3moved := by
  refine ⟨rfl, ?_, ?_, Snake.update_direction_body_getElem?_zero_direction s, by decide⟩
  · intro j
    simp [Snake.update_position]
  · intro j h1 h2
    rw [Snake.update_direction_body_getElem?_succ s j h1]
    rw [update_direction_go_getElem?_mid s.body (s.body.length - 1) j h1 (by omega) (by omega)]
    rw [List.getElem?_eq_getElem h2,
      List.getElem?_eq_getElem (by omega : j - 1 < s.body.length)]
    simp

/-- Witness for C6: on the concrete snake, segment 1 takes segment 0's old
direction. -/
theorem movement_and_direction_cascade_w :
    ((snake3.update_direction).body[1]?.map Segment.direction) =
      snake3.body[0]?.map Segment.direction :=
  (movement_and_direction_cascade snake3).2.2.1 1 (by decide) (by decide)

/-- Unfolding of one `update` tick: the moved board, the `GAME_ON` write from
the collision check, and the food step, which the source runs whether or not
a collision was just detected. -/
theorem GameState.update_eq (g : GameState) (r : Position) :
    g.update r =
      ⟨if g.board.after_move.snake.head.position = g.board.apple.position then
          { g.board.after_move with
            score := g.board.score + 1
            snake := g.board.after_move.snake.grow
            apple := ⟨⟨r.x, r.y⟩⟩ }
        else g.board.after_move,
        if g.board.after_move.check_snake_collision then false else g.game_on⟩ := rfl

theorem Board.after_move_body_length (b : Board) :
    b.after_move.snake.body.length = b.snake.body.length := by
  simp only [Board.after_move]
  rw [Snake.update_direction_body_length, Snake.update_position_body_length]

/-- Claim C1 (amended): on every tick on which the collision check fires,
`update()` transitions to GameOver (`GAME_ON` becomes false); but the rest of
the tick is NOT skipped: the food-consumption step still runs, so if
additionally the moved head sits on the food, the score increments, the snake
grows and the food respawns on that same collision tick. -/
theorem update_collision_sets_game_over_but_food_step_runs
    (g : GameState) (r : Position)
    (hc : g.board.after_move.check_snake_collision = true) :
    (g.update r).game_on = false ∧
    (g.board.after_move.snake.head.position = g.board.apple.position →
      (g.update r).board.score = g.board.score + 1 ∧
      (g.update r).board.snake.body.length = g.board.snake.body.length + 1 ∧
      (g.update r).board.apple.position = r) := by
  rw [GameState.update_eq]
  constructor
  · show (if g.board.after_move.check_snake_collision = true
        then false else g.game_on) = false
    rw [if_pos hc]
  · intro he
    rw [if_pos he]
    refine ⟨rfl, ?_, rfl⟩
    show (g.board.after_move.snake.grow).body.length = g.board.snake.body.length + 1
    rw [Snake.grow_body_length, Board.after_move_body_length]

/-- A tick on which the head lands simultaneously on a body segment and on
the food: head moves right from (5, 5) onto the resting body segment at
(6, 5), where the apple also lies. -/
def g0 : GameState :=
  ⟨⟨10, 10, 30, 0, ⟨⟨6, 5⟩⟩, ⟨⟨⟨5, 5⟩, Direction.R, true⟩, [⟨⟨6, 5⟩, Direction.N, false⟩]⟩⟩,
    true⟩

/-- Counterexample to C1 as stated: this `update()` call both reports the
collision (game over) and changes the score, the snake's length and the food
position in the remainder of the same call. -/
theorem update_collision_food_step_cx :
    (g0.update ⟨3, 3⟩).game_on = false ∧
    g0.board.score = 0 ∧ (g0.update ⟨3, 3⟩).board.score = 1 ∧
    g0.board.snake.body.length = 1 ∧ (g0.update ⟨3, 3⟩).board.snake.body.length = 2 ∧
    g0.board.apple.position = (⟨6, 5⟩ : Position) ∧
    (g0.update ⟨3, 3⟩).board.apple.position = (⟨3, 3⟩ : Position) := by
  decide

/-- Witness for the amended C1 at the concrete colliding-and-eating state:
both the unconditional GameOver transition and the conditional food step. -/
theorem update_collision_sets_game_over_but_food_step_runs_w :
    (g0.update ⟨3, 3⟩).game_on = false ∧
    (g0.update ⟨3, 3⟩).board.score = g0.board.score + 1 :=
  ⟨(update_collision_sets_game_over_but_food_step_runs g0 ⟨3, 3⟩ (by decide)).1,
    ((update_collision_sets_game_over_but_food_step_runs g0 ⟨3, 3⟩ (by decide)).2
      (by decide)).1⟩

/-- Claim C7 (amended): if the food sits exactly at the head's next position,
one `update()` adds 1 to the score, grows the snake by one segment, and
moves the food to the randomly drawn position, which lies in the inset
rectangle `[1, width-2] × [1, height-2]` and hence strictly inside the
board; it need not differ from the food's previous position. -/
theorem eat_food_scores_grows_respawns (g : GameState) (r : Position)
    (hf : g.board.apple.position =
      g.board.snake.head.position + g.board.snake.head.direction.value)
    (hx1 : 1 ≤ r.x) (hx2 : r.x ≤ g.board.width - 2)
    (hy1 : 1 ≤ r.y) (hy2 : r.y ≤ g.board.height - 2) :
    (g.update r).board.score = g.board.score + 1 ∧
    (g.update r).board.snake.body.length = g.board.snake.body.length + 1 ∧
    (g.update r).board.apple.position = r ∧
    (1 ≤ (g.update r).board.apple.position.x ∧
      (g.update r).board.apple.position.x ≤ (g.update r).board.width - 2 ∧
      1 ≤ (g.update r).board.apple.position.y ∧
      (g.update r).board.apple.position.y ≤ (g.update r).board.height - 2) ∧
    (0 ≤ (g.update r).board.apple.position.x ∧
      (g.update r).board.apple.position.x < (g.update r).board.width ∧
      0 ≤ (g.update r).board.apple.position.y ∧
      (g.update r).board.apple.position.y < (g.update r).board.height) := by
  have he : g.board.after_move.snake.head.position = g.board.apple.position := by
    rw [hf]
    simp only [Board.after_move]
    rw [Snake.update_direction_head]
    rfl
  rw [GameState.update_eq, if_pos he]
  refine ⟨rfl, ?_, rfl, ?_, ?_⟩
  · show (g.board.after_move.snake.grow).body.length = g.board.snake.body.length + 1
    rw [Snake.grow_body_length, Board.after_move_body_length]
  · show 1 ≤ r.x ∧ r.x ≤ g.board.width - 2 ∧ 1 ≤ r.y ∧ r.y ≤ g.board.height - 2
    exact ⟨hx1, hx2, hy1, hy2⟩
  · show 0 ≤ r.x ∧ r.x < g.board.width ∧ 0 ≤ r.y ∧ r.y < g.board.height
    omega

/-- A 25-by-15 board (the source's dimensions) about to eat the apple at
(6, 5), one step right of the head. -/
def g7 : GameState :=
  ⟨⟨25, 15, 30, 0, ⟨⟨6, 5⟩⟩, ⟨⟨⟨5, 5⟩, Direction.R, true⟩, []⟩⟩, true⟩

/-- Counterexample to C7 as stated: the draw `(6, 5)` is a legal `randint`
result, yet the food then respawns at exactly its previous position, so the
food is not always relocated to a different position. -/
theorem eat_food_respawn_same_position_cx :
    g7.board.apple.position =
      g7.board.snake.head.position + g7.board.snake.head.direction.value ∧
    (1 ≤ (6 : ℤ) ∧ (6 : ℤ) ≤ g7.board.width - 2 ∧
      1 ≤ (5 : ℤ) ∧ (5 : ℤ) ≤ g7.board.height - 2) ∧
    (g7.update ⟨6, 5⟩).board.score = 1 ∧
    (g7.update ⟨6, 5⟩).board.apple.position = g7.board.apple.position := by
  decide

/-- Witness for the amended C7 at the concrete about-to-eat state. -/
theorem eat_food_scores_grows_respawns_w :
    (g7.update ⟨3, 3⟩).board.score = g7.board.score + 1 :=
  (eat_food_scores_grows_respawns g7 ⟨3, 3⟩ (by decide) (by decide) (by decide) (by decide)
    (by decide)).1

/-- Claim C2 (amended): on any board whose width and height are both at least
2, `set_board` followed immediately by one `update()` with no intervening
`turn()` reports no collision: the start direction is the rest direction `N`,
so the snake does not move, and the centered start position is in bounds. -/
theorem reset_then_update_no_collision (b : Board) (r : Position)
    (hw : 2 ≤ b.width) (hh : 2 ≤ b.height) :
    (b.set_board).after_move.check_snake_collision = false ∧
    (GameState.update ⟨b.set_board, true⟩ r).game_on = true := by
  have hx : (b.set_board).after_move.snake.head.position.x = b.width / 2 - 1 + 0 := rfl
  have hy : (b.set_board).after_move.snake.head.position.y = b.height / 2 - 1 + 0 := rfl
  have hbody : (b.set_board).after_move.snake.body = [] := rfl
  have hwidth : (b.set_board).after_move.width = b.width := rfl
  have hheight : (b.set_board).after_move.height = b.height := rfl
  have hcheck : (b.set_board).after_move.check_snake_collision = false := by
    cases hb : (b.set_board).after_move.check_snake_collision with
    | false => rfl
    | true =>
      exfalso
      rcases (check_snake_collision_iff _).mp hb with hoob | hmem | hpair
      · rw [hx, hy, hwidth, hheight] at hoob
        omega
      · rw [hbody] at hmem
        simp at hmem
      · rw [hbody] at hpair
        simp at hpair
  refine ⟨hcheck, ?_⟩
  rw [GameState.update_eq]
  show (if (b.set_board).after_move.check_snake_collision = true then false else true) = true
  rw [hcheck]
  simp

/-- A degenerate 1-by-1 board. -/
def b1x1 : Board := ⟨1, 1, 30, 0, ⟨⟨0, 0⟩⟩, Snake.init 0 0⟩

/-- Counterexample to C2 as stated: on the 1-by-1 board, `set_board` places
the head at `(-1, -1)`, so the very first `update()` reports a collision
even though the snake never moves. -/
theorem reset_then_update_collision_cx :
    (b1x1.set_board).after_move.check_snake_collision = true ∧
    (GameState.update ⟨b1x1.set_board, true⟩ ⟨1, 1⟩).game_on = false := by
  decide

/-- A 10-by-10 board (arbitrary pre-reset contents). -/
def b10 : Board := ⟨10, 10, 30, 0, ⟨⟨0, 0⟩⟩, Snake.init 0 0⟩

/-- Witness for the amended C2 on the concrete 10-by-10 board. -/
theorem reset_then_update_no_collision_w :
    (GameState.update ⟨b10.set_board, true⟩ ⟨2, 2⟩).game_on = true :=
  (reset_then_update_no_collision b10 ⟨2, 2⟩ (by decide) (by decide)).2

theorem Snake.update_position_body_getElem? (s : Snake) (j : Nat) :
    (s.update_position).body[j]? =
      s.body[j]?.map fun seg => { seg with position := seg.position + seg.direction.value } := by
  simp [Snake.update_position]

/-- Positions of the moved snake's body, indexwise: each body segment has
advanced by its own old direction delta. -/
theorem Snake.moved_body_position (s : Snake) (j : Nat) :
    ((s.update_position.update_direction).body[j]?.map Segment.position) =
      s.body[j]?.map fun seg => seg.position + seg.direction.value := by
  rw [Snake.update_direction_body_getElem?_position, Snake.update_position_body_getElem?]
  cases s.body[j]? <;> rfl

/-- Claim C10: growing while the last existing segment rests (direction `N`,
delta `(0, 0)`) duplicates that segment's cell: the appended segment is
created at exactly the same position, and the next `update()` tick reports a
collision (two body cells coincide, or the lone body cell sits on the head),
ending the game. -/
theorem grow_none_direction_overlap_collision (b : Board) (on0 : Bool) (r : Position)
    (hlast : (b.snake.body.getLast?.getD b.snake.head).direction = Direction.N) :
    ((b.snake.grow).body.getLast?.map Segment.position =
      some (b.snake.body.getLast?.getD b.snake.head).position) ∧
    (GameState.update ⟨{ b with snake := b.snake.grow }, on0⟩ r).game_on = false := by
  have hgrow : (b.snake.grow).body = b.snake.body ++
      [⟨(b.snake.body.getLast?.getD b.snake.head).position -
          (b.snake.body.getLast?.getD b.snake.head).direction.value,
        (b.snake.body.getLast?.getD b.snake.head).direction, false⟩] := rfl
  rw [hlast, Position.sub_value_N] at hgrow
  have hpart1 : (b.snake.grow).body.getLast?.map Segment.position =
      some (b.snake.body.getLast?.getD b.snake.head).position := by
    rw [hgrow, List.getLast?_concat]
    rfl
  refine ⟨hpart1, ?_⟩
  have hlen2 : (b.snake.grow.update_position.update_direction).body.length =
      b.snake.body.length + 1 := by
    rw [Snake.update_direction_body_length, Snake.update_position_body_length,
      Snake.grow_body_length]
  have hcol :
      ({ b with snake := b.snake.grow } : Board).after_move.check_snake_collision = true := by
    apply (check_snake_collision_iff _).mpr
    have hsnake_eq : ({ b with snake := b.snake.grow } : Board).after_move.snake =
        b.snake.grow.update_position.update_direction := rfl
    rw [hsnake_eq]
    rcases List.eq_nil_or_concat b.snake.body with hnil | ⟨l, e, hcat⟩
    · -- empty body: the new segment lands on the head cell
      have hheadN : b.snake.head.direction = Direction.N := by
        rw [hnil] at hlast
        simpa using hlast
      have hgrowA : (b.snake.grow).body = [⟨b.snake.head.position, Direction.N, false⟩] := by
        rw [hgrow, hnil]
        simp
      have hhead2 : (b.snake.grow.update_position.update_direction).head.position =
          b.snake.head.position := by
        rw [Snake.update_direction_head]
        show (b.snake.grow).head.position + (b.snake.grow).head.direction.value = _
        rw [show (b.snake.grow).head = b.snake.head from rfl, hheadN, Position.add_value_N]
      have hpos0 : ((b.snake.grow.update_position.update_direction).body[0]?.map
          Segment.position) = some b.snake.head.position := by
        rw [Snake.moved_body_position, hgrowA]
        simp [Direction.value]
      have h0 : 0 < (b.snake.grow.update_position.update_direction).body.length := by
        rw [hlen2]
        omega
      obtain ⟨seg, hseg⟩ :
          ∃ seg, (b.snake.grow.update_position.update_direction).body[0]? = some seg :=
        ⟨_, List.getElem?_eq_getElem h0⟩
      have hsegpos : seg.position = b.snake.head.position := by
        rw [hseg] at hpos0
        simpa using hpos0
      refine Or.inr (Or.inl ⟨seg, List.mem_iff_getElem?.mpr ⟨0, hseg⟩, ?_⟩)
      rw [hsegpos, hhead2]
    · -- nonempty body: the old tail and the new segment coincide
      rw [List.concat_eq_append] at hcat
      have hld : b.snake.body.getLast?.getD b.snake.head = e := by
        rw [hcat, List.getLast?_concat]
        rfl
      have heN : e.direction = Direction.N := by
        rw [hld] at hlast
        exact hlast
      have hgrow2 : (b.snake.grow).body =
          (l ++ [e]) ++ [⟨e.position, Direction.N, false⟩] := by
        rw [hgrow, hld, hcat]
      have hblen : b.snake.body.length = l.length + 1 := by
        rw [hcat]
        simp
      have hposm : ((b.snake.grow.update_position.update_direction).body[l.length]?.map
          Segment.position) = some e.position := by
        rw [Snake.moved_body_position, hgrow2, List.append_assoc]
        rw [List.getElem?_append_right (Nat.le_refl l.length)]
        simp [Nat.sub_self, heN, Direction.value]
      have hposm1 : ((b.snake.grow.update_position.update_direction).body[l.length + 1]?.map
          Segment.position) = some e.position := by
        rw [Snake.moved_body_position, hgrow2, List.append_assoc]
        rw [List.getElem?_append_right (by omega : l.length ≤ l.length + 1)]
        have hone : l.length + 1 - l.length = 1 := by omega
        rw [hone]
        simp [Direction.value]
      have hm : l.length < (b.snake.grow.update_position.update_direction).body.length := by
        rw [hlen2, hblen]
        omega
      have hm1 : l.length + 1 < (b.snake.grow.update_position.update_direction).body.length := by
        rw [hlen2, hblen]
        omega
      obtain ⟨si, hsi⟩ :
          ∃ si, (b.snake.grow.update_position.update_direction).body[l.length]? = some si :=
        ⟨_, List.getElem?_eq_getElem hm⟩
      obtain ⟨sj, hsj⟩ :
          ∃ sj, (b.snake.grow.update_position.update_direction).body[l.length + 1]? = some sj :=
        ⟨_, List.getElem?_eq_getElem hm1⟩
      have h1 : si.position = e.position := by
        rw [hsi] at hposm
        simpa using hposm
      have h2 : sj.position = e.position := by
        rw [hsj] at hposm1
        simpa using hposm1
      refine Or.inr (Or.inr ⟨l.length, l.length + 1, si, sj, by omega, hsi, hsj, ?_⟩)
      rw [h1, h2]
  rw [GameState.update_eq]
  show (if ({ b with snake := b.snake.grow } : Board).after_move.check_snake_collision = true
      then false else on0) = false
  rw [hcol]
  simp

/-- A 10-by-10 board with a lone resting head at (4, 4). -/
def bN : Board := ⟨10, 10, 30, 0, ⟨⟨0, 0⟩⟩, ⟨⟨⟨4, 4⟩, Direction.N, true⟩, []⟩⟩

/-- Witness for C10: growing the resting snake ends the game on the next
update. -/
theorem grow_none_direction_overlap_collision_w :
    (GameState.update ⟨{ bN with snake := bN.snake.grow }, true⟩ ⟨2, 2⟩).game_on = false :=
  (grow_none_direction_overlap_collision bN true ⟨2, 2⟩ (by decide)).2
